import Mathlib

/-!
Verification of the Video Downloader browser extension (service worker and
popup logic) against its natural-language specification.

The JavaScript sources are shallowly embedded as executable Lean functions:
strings are Lean `String`s, JS `String.prototype.includes` /
`startsWith` / `toLowerCase` are modelled on character lists, the WHATWG
`URL` constructor is modelled by a simplified parser for hierarchical
`scheme://host/path?query#fragment` URLs (sufficient for the http(s) URLs
the extension handles; non-hierarchical inputs are treated as parse
failures, matching the `catch` branches of the source), JS exceptions are
modelled with `Except`, and the browser / server collaborators
(`chrome.cookies.getAll`, `fetch`) are modelled as explicit inputs.
-/

namespace VideoDL

/-- First index of `s` at which `pat` occurs as a prefix of the remaining
characters; models the search underlying `String.prototype.includes`. -/
def findSubIdx? : List Char → List Char → Option Nat
  | [], pat => if pat.isEmpty then some 0 else none
  | c :: t, pat =>
    if pat.isPrefixOf (c :: t) then some 0 else (findSubIdx? t pat).map (· + 1)

/-- Models `s.includes(pat)` on JS strings. -/
def strIncludes (s pat : String) : Bool :=
  (findSubIdx? s.data pat.data).isSome

/-- Models `s.startsWith(pre)` on JS strings. -/
def strStartsWith (s pre : String) : Bool :=
  pre.data.isPrefixOf s.data

/-- Models `s.toLowerCase()` (the URLs involved are ASCII). -/
def lowerStr (s : String) : String :=
  ⟨s.data.map Char.toLower⟩

/-- Characters allowed in a URL scheme, as accepted by the WHATWG parser. -/
def isSchemeChar (c : Char) : Bool :=
  c.isAlpha || c.isDigit || c = '+' || c = '-' || c = '.'

/-- Result of parsing a URL with `new URL(...)`: the components the
extension reads (`hostname`, `origin`, `pathname`). -/
structure ParsedUrl where
  scheme : String
  hostname : String
  port : String
  pathname : String
  query : String
deriving DecidableEq, Repr

/-- Models `u.origin` for a parsed URL (default ports are omitted, as the
WHATWG parser does). -/
def ParsedUrl.origin (u : ParsedUrl) : String :=
  let portPart :=
    if u.port = "" || (u.scheme = "http" && u.port = "80") ||
       (u.scheme = "https" && u.port = "443") then "" else ":" ++ u.port
  u.scheme ++ "://" ++ u.hostname ++ portPart

/-- Models `new URL(s)` for hierarchical URLs: splits
`scheme://host:port/path?query#fragment`.  Inputs without a well-formed
`scheme://host` part yield `none`, which the embedding maps to the
exception branch of the source's `try`/`catch`. -/
def parseUrl (s : String) : Option ParsedUrl :=
  match findSubIdx? s.data "://".data with
  | none => none
  | some i =>
    let cs := s.data
    let scheme := cs.take i
    let rest := cs.drop (i + 3)
    if scheme.isEmpty || !(scheme.all isSchemeChar) then none
    else
      let hostport := rest.takeWhile (fun c => c ≠ '/' && c ≠ '?' && c ≠ '#')
      if hostport.isEmpty then none
      else
        let afterHost := rest.drop hostport.length
        let hostname := hostport.takeWhile (fun c => c ≠ ':')
        let port := (hostport.drop hostname.length).drop 1
        let path := afterHost.takeWhile (fun c => c ≠ '?' && c ≠ '#')
        let afterPath := afterHost.drop path.length
        let query :=
          match afterPath with
          | '?' :: qs => qs.takeWhile (fun c => c ≠ '#')
          | _ => []
        some { scheme := ⟨scheme.map Char.toLower⟩
               hostname := ⟨hostname.map Char.toLower⟩
               port := ⟨port⟩
               pathname := if path.isEmpty then "/" else ⟨path⟩
               query := ⟨query⟩ }

/-- Length of the maximal leading run of characters other than `/`. -/
def runNonSlash : List Char → Nat
  | [] => 0
  | c :: t => if c = '/' then 0 else runNonSlash t + 1

/-- The literal tail of the popup's Cloudflare pattern. -/
def manifestLit : List Char := "/manifest/video.m3u8".data

/-- Leftmost match of the regex `\/[^\/]+\/manifest\/video\.m3u8` used by
the popup's `normalizeUrl`: at a position starting with `/`, the greedy
`[^\/]+` consumes the whole run of non-slash characters (the following
literal starts with `/`, so no shorter run can match), after which the
literal must follow. -/
def cfMatch : List Char → Option (List Char)
  | [] => none
  | c :: t =>
    if c = '/' && decide (1 ≤ runNonSlash t) &&
       manifestLit.isPrefixOf (t.drop (runNonSlash t)) then
      some ('/' :: (t.take (runNonSlash t) ++ manifestLit))
    else
      cfMatch t

/-- The successful-parse branch of the popup's `normalizeUrl`. -/
def normParsed (u : ParsedUrl) : String :=
  if strIncludes u.hostname "cloudflarestream.com" then
    match cfMatch u.pathname.data with
    | some m => u.hostname ++ ⟨m⟩
    | none => u.origin ++ u.pathname
  else u.origin ++ u.pathname

/-- Embedding of `normalizeUrl` (popup.js): for Cloudflare Stream hosts it
returns `hostname + <regex match>` when the pattern occurs in the path;
otherwise `origin + pathname`; on a parse failure, the lowercased input. -/
def normalizeUrl (url : String) : String :=
  match parseUrl url with
  | none => lowerStr url
  | some u => normParsed u

/-- A detected video/stream item as the popup handles it (`{url, type,
source}` objects built in `renderVideos`). -/
structure StreamItem where
  url : String
  kind : String
  source : String
deriving DecidableEq, Repr

/-- Embedding of the `Remove duplicatas` step of `renderVideos`: keeps an
item exactly when its index is the first index whose URL normalizes to the
same string (`filter` with `findIndex` in the source). -/
def dedupByNorm (items : List StreamItem) : List StreamItem :=
  (items.enum.filter
    (fun p => items.findIdx? (fun i => normalizeUrl i.url == normalizeUrl p.2.url) = some p.1)).map
    Prod.snd

/-- Embedding of `isImageUrl` (popup.js). -/
def isImageUrl (url : String) : Bool :=
  let lower := lowerStr url
  [".png", ".jpg", ".jpeg", ".gif", ".webp", ".svg", ".ico", ".bmp"].any
    (fun ext => strIncludes lower ext)

/-- Embedding of `isValidVideoUrl` (popup.js); the `!url` truthiness test
is the empty-string test on a string input. -/
def isValidVideoUrl (url : String) : Bool :=
  if url = "" || isImageUrl url then false
  else
    let lower := lowerStr url
    strIncludes lower ".mp4" || strIncludes lower ".m3u8" ||
    strIncludes lower ".mpd" || strIncludes lower ".webm" ||
    strIncludes lower "smartplayer.io" || strIncludes lower "cloudflarestream.com" ||
    strIncludes lower "scaleup.com.br"

/-- Embedding of `getStreamPriority` (popup.js). -/
def getStreamPriority (s : StreamItem) : Nat :=
  let url := lowerStr s.url
  let p1 :=
    if strIncludes url "smartplayer.io" || strIncludes url "scaleup.com.br" then
      100 + (if !strIncludes url "_en_" && !strIncludes url "_192k" then 50 else 0) +
      (if strIncludes url ".mp4" then 20 else 0)
    else 0
  let p2 := if strIncludes url "cloudflarestream.com" then p1 + 100 else p1
  let p3 := if strIncludes url ".m3u8" then p2 + 30 else p2
  if strIncludes url ".mp4" then p3 + 40 else p3

/-- Embedding of `isSmartPlayerAudioUrl` (popup.js). -/
def isSmartPlayerAudioUrl (url : String) : Bool :=
  let lower := lowerStr url
  (strIncludes lower "smartplayer.io" || strIncludes lower "scaleup.com.br") &&
  (strIncludes lower "_en_" || strIncludes lower "_192k" || strIncludes lower "_audio")

/-- Stable insertion into a sorted list with a three-way comparator;
an element is placed before the first element it does not compare
after, matching the stable `Array.prototype.sort`. -/
def insertCmp (cmp : α → α → Int) (a : α) : List α → List α
  | [] => [a]
  | b :: bs => if cmp a b ≤ 0 then a :: b :: bs else b :: insertCmp cmp a bs

/-- Stable comparator sort modelling `Array.prototype.sort(cmp)` (the
ECMAScript specification requires a stable sort). -/
def jsSort (cmp : α → α → Int) : List α → List α
  | [] => []
  | a :: as => insertCmp cmp a (jsSort cmp as)

/-- Embedding of `findMainVideoStream` (popup.js): filters out invalid and
SmartPlayer-audio URLs, sorts by descending priority, takes the head. -/
def findMainVideoStream (streams : List StreamItem) : Option StreamItem :=
  let videoStreams :=
    streams.filter (fun s => isValidVideoUrl s.url && !isSmartPlayerAudioUrl s.url)
  match jsSort (fun a b => (getStreamPriority b : Int) - (getStreamPriority a : Int)) videoStreams with
  | [] => none
  | s :: _ => some s

/-- The `a.url.toLowerCase().includes('.mp4')` test of the audio-stream
comparator. -/
def hasMp4Url (s : StreamItem) : Bool :=
  strIncludes (lowerStr s.url) ".mp4"

/-- The comparator of `findSmartPlayerAudioStream`: `.mp4` URLs sort
before non-`.mp4` URLs, everything else compares equal. -/
def audioCmp (a b : StreamItem) : Int :=
  if hasMp4Url a && !hasMp4Url b then -1
  else if !hasMp4Url a && hasMp4Url b then 1
  else 0

/-- Embedding of `findSmartPlayerAudioStream` (popup.js). -/
def findSmartPlayerAudioStream (streams : List StreamItem) : Option StreamItem :=
  let audioStreams := streams.filter (fun s => isSmartPlayerAudioUrl s.url)
  match jsSort audioCmp audioStreams with
  | [] => none
  | s :: _ => some s

/-- A cookie as reported by `chrome.cookies.getAll` (the fields the
service worker reads; `expirationDate` is absent on session cookies). -/
structure RawCookie where
  name : String
  value : String
  domain : String
  path : String
  secure : Bool
  httpOnly : Bool
  expirationDate : Option ℚ
deriving DecidableEq, Repr

/-- A cookie record as built by `getCookiesForUrl` (service-worker.js):
exactly the seven projected fields, with `expirationDate` defaulted. -/
structure Cookie where
  name : String
  value : String
  domain : String
  path : String
  secure : Bool
  httpOnly : Bool
  expirationDate : ℚ
deriving DecidableEq, Repr

/-- The per-cookie projection inside `getCookiesForUrl`; `c.expirationDate
|| 0` on a number-or-undefined value is the defaulted value. -/
def projectCookie (c : RawCookie) : Cookie :=
  { name := c.name, value := c.value, domain := c.domain, path := c.path,
    secure := c.secure, httpOnly := c.httpOnly,
    expirationDate := c.expirationDate.getD 0 }

/-- Embedding of `getCookiesForUrl` (service-worker.js): the browser call
`chrome.cookies.getAll({url})` is an input that either yields raw cookies
or throws; the `catch` branch returns the empty list. -/
def getCookiesForUrl : Except String (List RawCookie) → List Cookie
  | .error _ => []
  | .ok cs => cs.map projectCookie

/-- Does a cookie with the same `(name, domain)` pair occur in the list?
This is the `cookies.some(c => c.name === vc.name && c.domain ===
vc.domain)` test of `handleDownloadRequest`. -/
def pairIn (vc : Cookie) (l : List Cookie) : Bool :=
  l.any (fun c => c.name == vc.name && c.domain == vc.domain)

/-- Embedding of the cookie-merge loop of `handleDownloadRequest`
(service-worker.js 379-383): video-URL cookies are pushed onto the
page-URL cookie list unless the accumulated list already holds the same
`(name, domain)` pair. -/
def mergeCookies (pageCookies videoCookies : List Cookie) : List Cookie :=
  videoCookies.foldl (fun acc vc => if pairIn vc acc then acc else acc ++ [vc]) pageCookies

/-- The merge rule as the specification's claim words it: all page-URL
cookies, followed by exactly those video-URL cookies whose `(name,
domain)` pair does not occur among the page-URL cookies.  Stated for
refinement comparison with `mergeCookies`. -/
def mergeCookiesSpec (pageCookies videoCookies : List Cookie) : List Cookie :=
  pageCookies ++ videoCookies.filter (fun vc => !pairIn vc pageCookies)

/-- The amended merge rule stated from the specification's words, for
refinement comparison with `mergeCookies`: walk the video-URL cookies in
order and keep exactly those whose `(name, domain)` pair occurs neither
in the page-URL cookies nor among the video-URL cookies already kept
(first-seen-wins within the video-URL cookies as well).  `kept` is the
accumulator of video-URL cookies appended so far. -/
def firstSeenKept (page kept : List Cookie) : List Cookie → List Cookie
  | [] => []
  | vc :: rest =>
    if pairIn vc page || pairIn vc kept then firstSeenKept page kept rest
    else vc :: firstSeenKept page (kept ++ [vc]) rest

/-- Embedding of `isCloudflareStreamUrl` (service-worker.js). -/
def isCloudflareStreamUrl (url : String) : Bool :=
  strIncludes url "cloudflarestream.com" && strIncludes url "/manifest/"

/-- Embedding of `isSmartPlayerUrl` (service-worker.js). -/
def isSmartPlayerUrl (url : String) : Bool :=
  strIncludes url "smartplayer.io" || strIncludes url "scaleup.com.br"

/-- Embedding of `isSpecialStreamUrl` (service-worker.js). -/
def isSpecialStreamUrl (url : String) : Bool :=
  isCloudflareStreamUrl url || isSmartPlayerUrl url

/-- Embedding of `isHublaUrl` (service-worker.js). -/
def isHublaUrl (url : String) : Bool :=
  strIncludes url "hub.la"

/-- Embedding of `isVideoStreamUrl` (service-worker.js). -/
def isVideoStreamUrl (url : String) : Bool :=
  let lower := lowerStr url
  strIncludes lower ".m3u8" || strIncludes lower ".mpd" ||
  strIncludes lower "cloudflarestream.com" || strIncludes lower ".mp4" ||
  strIncludes lower ".webm"

/-- Embedding of `isInvalidUrl` (service-worker.js).  `none` models a
missing (`undefined`) field, which the source's `!url` test also treats
as invalid; for a string input, `!url` is the empty-string test. -/
def isInvalidUrl : Option String → Bool
  | none => true
  | some url =>
    url = "" || strStartsWith url "blob:" || strStartsWith url "data:" ||
    strStartsWith url "chrome:" || strStartsWith url "about:" || strStartsWith url "javascript:"

/-- The domain list of `isSupportedSite` (service-worker.js). -/
def supportedDomains : List String :=
  ["youtube.com", "youtu.be", "vimeo.com", "dailymotion.com", "twitch.tv",
   "twitter.com", "x.com", "facebook.com", "fb.watch", "instagram.com", "tiktok.com"]

/-- Embedding of `isSupportedSite` (service-worker.js); a `new URL` parse
failure is caught and yields `false`. -/
def isSupportedSite (url : String) : Bool :=
  match parseUrl url with
  | none => false
  | some u => supportedDomains.any (fun d => strIncludes (lowerStr u.hostname) d)

/-- The `data` argument of `handleDownloadRequest` as sent by the popup;
`none` in an `Option` field models an absent (`undefined`) property. -/
structure DownloadData where
  url : Option String
  pageUrl : String
  title : Option String
  format : Option String
deriving DecidableEq, Repr

/-- Models the JS idiom `x || dflt` on a possibly-absent string: absent
and empty strings are falsy. -/
def jsOrStr (o : Option String) (dflt : String) : String :=
  match o with
  | none => dflt
  | some s => if s = "" then dflt else s

/-- Values appearing in the JSON payload posted to `/api/download`. -/
inductive JsonVal
  | jstr (s : String)
  | jnull
  | jarr (cookies : List Cookie)
deriving DecidableEq, Repr

/-- The JSON object posted to `/api/download`, as an ordered field list. -/
abbrev Payload := List (String × JsonVal)

/-- Embedding of the URL-routing branches of `handleDownloadRequest`
(service-worker.js 386-416), returning `(downloadUrl, videoUrl)`.  When
`data.url` is absent, the very first test `isSpecialStreamUrl(data.url)`
evaluates `undefined.includes(...)` and throws a `TypeError`, modelled by
the `Except.error` branch. -/
def routeUrls (url : Option String) (pageUrl : String) :
    Except String (String × Option String) :=
  match url with
  | none => .error "TypeError: Cannot read properties of undefined (reading includes)"
  | some u =>
    if isSpecialStreamUrl u then .ok (u, none)
    else if isInvalidUrl (some u) || isSupportedSite pageUrl then
      .ok (pageUrl, if !isInvalidUrl (some u) && isVideoStreamUrl u then some u else none)
    else if isVideoStreamUrl u then .ok (u, none)
    else if isHublaUrl pageUrl then
      .ok (pageUrl, if !isInvalidUrl (some u) then some u else none)
    else .ok (u, none)

/-- The payload literal of `handleDownloadRequest` (service-worker.js
418-424), field order as in the source object. -/
def buildPayload (d : DownloadData) (cookies : List Cookie)
    (downloadUrl : String) (videoUrl : Option String) : Payload :=
  [("url", .jstr downloadUrl),
   ("videoUrl", match videoUrl with | some v => .jstr v | none => .jnull),
   ("title", .jstr (jsOrStr d.title "video")),
   ("cookies", .jarr cookies),
   ("outputFormat", .jstr (jsOrStr d.format "mp4"))]

/-- The JSON body of the server response, as `handleDownloadRequest` reads
it: `extraction_required` is the truthiness of that field (absent being
falsy), `hint` a possibly-absent string, `rest` the remaining fields
carried opaquely so that returning the body unchanged is observable. -/
structure ServerBody where
  extraction_required : Bool
  hint : Option String
  rest : List (String × String)
deriving DecidableEq, Repr

/-- The collaborator outcomes a single `handleDownloadRequest` run
consumes: the two `chrome.cookies.getAll` results and the `fetch` of
`/api/download` (`ok` flag of the response together with its parsed JSON
body, or a thrown network/JSON error). -/
structure HandleEnv where
  pageCookieRes : Except String (List RawCookie)
  videoCookieRes : Except String (List RawCookie)
  fetchRes : Except String (Bool × ServerBody)
deriving Repr

/-- The notifications `handleDownloadRequest` can create. -/
inductive Notif
  | downloadStarted (title message : String)
  | waitForLoad (title message : String)
deriving DecidableEq, Repr

/-- What `handleDownloadRequest` returns to the message listener: the
server body on the non-throwing path, or the `{success: false, error}`
object built in the `catch` branch. -/
inductive DownloadReturn
  | body (b : ServerBody)
  | failure (error : String)
deriving DecidableEq, Repr

/-- Observable outcome of one `handleDownloadRequest` run: the returned
value, the payload passed to `fetch` (when the fetch call was reached),
and the notification created (if any). -/
structure HandleOutcome where
  ret : DownloadReturn
  posted : Option Payload
  notif : Option Notif
deriving DecidableEq, Repr

/-- Whether the video-URL cookie fetch runs: `data.url && data.url !==
data.pageUrl && !isInvalidUrl(data.url)` (service-worker.js 376). -/
def wantsVideoCookies (d : DownloadData) : Bool :=
  match d.url with
  | none => false
  | some u => u ≠ "" && u ≠ d.pageUrl && !isInvalidUrl (some u)

/-- The cookie list attached to the enqueued payload (service-worker.js
370-384): page-URL cookies, merged with video-URL cookies when the
video-URL cookie fetch runs. -/
def effectiveCookies (d : DownloadData) (env : HandleEnv) : List Cookie :=
  let pageCookies := if d.pageUrl ≠ "" then getCookiesForUrl env.pageCookieRes else []
  if wantsVideoCookies d then mergeCookies pageCookies (getCookiesForUrl env.videoCookieRes)
  else pageCookies

/-- Embedding of `handleDownloadRequest` (service-worker.js 368-467).
Cookie retrieval never throws (it catches internally); the URL routing
throws only on an absent `data.url`; a `fetch`/`json()` error is caught
by the surrounding `try`, producing the `{success: false, error}` return
with no notification. -/
def handleDownloadRequest (d : DownloadData) (env : HandleEnv) : HandleOutcome :=
  let cookies := effectiveCookies d env
  match routeUrls d.url d.pageUrl with
  | .error e => { ret := .failure e, posted := none, notif := none }
  | .ok (downloadUrl, videoUrl) =>
    let payload := buildPayload d cookies downloadUrl videoUrl
    match env.fetchRes with
    | .error e => { ret := .failure e, posted := some payload, notif := none }
    | .ok (okFlag, body) =>
      let notif :=
        if okFlag then
          some (.downloadStarted "Download Iniciado"
            (jsOrStr d.title "Vídeo" ++ " adicionado à fila de download"))
        else if body.extraction_required then
          some (.waitForLoad "Aguarde o vídeo carregar"
            (jsOrStr body.hint "Aguarde o vídeo carregar na página e tente novamente"))
        else none
      { ret := .body body, posted := some payload, notif := notif }

/-- Modelled from the spec: the Job status values of the server-side Job
Queue Manager (the local HTTP server holding the job table is not part of
the extension sources; only its HTTP clients are). -/
inductive JobStatus
  | pending
  | downloading
  | processing
  | completed
  | error
  | cancelled
deriving DecidableEq, Repr

/-- Modelled from the spec: a Job of the server-side Job Queue Manager,
restricted to the fields the progress claims concern (`id`, `status`,
`progress`). -/
structure Job where
  id : Nat
  status : JobStatus
  progress : ℚ
deriving DecidableEq, Repr

/-- Modelled from the spec: enqueueing creates a fresh Job, `pending` with
progress 0; a restart-equivalent re-enqueue goes through this constructor
and therefore carries a new Job id. -/
def mkJob (id : Nat) : Job :=
  { id := id, status := .pending, progress := 0 }

/-- Modelled from the spec: applying one progress event to a Job.  The
Media Engine Adapter normalizes engine percentages into the 0-100 range,
and the Job Queue Manager keeps `progress` monotonically non-decreasing
while the Job is `downloading` or `processing`; outside those states
progress events are not applied. -/
def applyProgress (j : Job) (p : ℚ) : Job :=
  if j.status = .downloading ∨ j.status = .processing then
    { j with progress := max j.progress (min 100 (max 0 p)) }
  else j

/-- Modelled from the spec: a sequence of progress events applied in
order to a Job (last-write-wins updates folded over the event list). -/
def applyProgressTrace (j : Job) (ps : List ℚ) : Job :=
  ps.foldl applyProgress j

/-! Helper lemmas about the routing and the request handler. -/

theorem routeUrls_some_isOk (u pageUrl : String) :
    ∃ du vu, routeUrls (some u) pageUrl = .ok (du, vu) := by
  simp only [routeUrls]
  split_ifs <;> exact ⟨_, _, rfl⟩

theorem routeUrls_special (u pageUrl : String) (h : isSpecialStreamUrl u = true) :
    routeUrls (some u) pageUrl = .ok (u, none) := by
  simp only [routeUrls]
  rw [if_pos h]

theorem handle_posted (d : DownloadData) (env : HandleEnv) (du : String)
    (vu : Option String) (h : routeUrls d.url d.pageUrl = .ok (du, vu)) :
    (handleDownloadRequest d env).posted =
      some (buildPayload d (effectiveCookies d env) du vu) := by
  unfold handleDownloadRequest
  rw [h]
  cases env.fetchRes with
  | error e => rfl
  | ok r => rfl

theorem handle_ret_fetch_error (d : DownloadData) (env : HandleEnv)
    (du : String) (vu : Option String) (m : String)
    (h : routeUrls d.url d.pageUrl = .ok (du, vu)) (hf : env.fetchRes = .error m) :
    (handleDownloadRequest d env).ret = .failure m := by
  unfold handleDownloadRequest
  rw [h, hf]

theorem handle_ret_fetch_ok (d : DownloadData) (env : HandleEnv)
    (du : String) (vu : Option String) (okFlag : Bool) (body : ServerBody)
    (h : routeUrls d.url d.pageUrl = .ok (du, vu))
    (hf : env.fetchRes = .ok (okFlag, body)) :
    (handleDownloadRequest d env).ret = .body body := by
  unfold handleDownloadRequest
  rw [h, hf]

theorem handle_url_none (d : DownloadData) (env : HandleEnv) (h : d.url = none) :
    handleDownloadRequest d env =
      { ret := .failure "TypeError: Cannot read properties of undefined (reading includes)",
        posted := none, notif := none } := by
  unfold handleDownloadRequest
  rw [h]
  rfl

/-! Helper lemmas about the stable comparator sort. -/

theorem insertCmp_perm (cmp : α → α → Int) (a : α) (l : List α) :
    List.Perm (insertCmp cmp a l) (a :: l) := by
  induction l with
  | nil => exact List.Perm.refl _
  | cons b bs ih =>
    unfold insertCmp
    split_ifs
    · exact List.Perm.refl _
    · exact ((ih.cons b).trans (List.Perm.swap a b bs))

theorem jsSort_perm (cmp : α → α → Int) (l : List α) :
    List.Perm (jsSort cmp l) l := by
  induction l with
  | nil => exact List.Perm.refl _
  | cons a as ih =>
    exact (insertCmp_perm cmp a (jsSort cmp as)).trans (ih.cons a)

theorem mem_of_mem_jsSort {cmp : α → α → Int} {l : List α} {x : α}
    (h : x ∈ jsSort cmp l) : x ∈ l :=
  (jsSort_perm cmp l).mem_iff.mp h

theorem audioCmp_le_of_mp4_left {b c : StreamItem} (hb : hasMp4Url b = true) :
    audioCmp b c ≤ 0 := by
  unfold audioCmp
  cases hc : hasMp4Url c <;> simp [hb, hc]

theorem audioCmp_pos_of_mp4_right {b c : StreamItem} (hb : hasMp4Url b = false)
    (hc : hasMp4Url c = true) : ¬ audioCmp b c ≤ 0 := by
  unfold audioCmp
  simp [hb, hc]

theorem insertCmp_audio_front (b : StreamItem) (hb : hasMp4Url b = true)
    (s : List StreamItem) : ∃ t, insertCmp audioCmp b s = b :: t := by
  cases s with
  | nil => exact ⟨[], rfl⟩
  | cons c cs =>
    refine ⟨c :: cs, ?_⟩
    unfold insertCmp
    rw [if_pos (audioCmp_le_of_mp4_left hb)]

/-- For the popup's audio comparator, sorting brings a `.mp4` URL to the
front whenever one is present. -/
theorem jsSort_audioCmp_head (l : List StreamItem)
    (h : ∃ x ∈ l, hasMp4Url x = true) :
    ∃ a t, jsSort audioCmp l = a :: t ∧ hasMp4Url a = true := by
  induction l with
  | nil => obtain ⟨x, hx, _⟩ := h; exact absurd hx (List.not_mem_nil x)
  | cons b bs ih =>
    obtain ⟨x, hx, hxmp4⟩ := h
    show ∃ a t, insertCmp audioCmp b (jsSort audioCmp bs) = a :: t ∧ hasMp4Url a = true
    by_cases hb : hasMp4Url b = true
    · obtain ⟨t, ht⟩ := insertCmp_audio_front b hb (jsSort audioCmp bs)
      exact ⟨b, t, ht, hb⟩
    · have hxbs : x ∈ bs := by
        rcases List.mem_cons.mp hx with h1 | h1
        · exact absurd (h1 ▸ hxmp4) hb
        · exact h1
      obtain ⟨a, t, hat, ha⟩ := ih ⟨x, hxbs, hxmp4⟩
      rw [hat]
      unfold insertCmp
      rw [if_neg (audioCmp_pos_of_mp4_right (Bool.eq_false_iff.mpr hb ▸ rfl) ha)]
      exact ⟨a, insertCmp audioCmp b t, rfl, ha⟩

/-! Helper lemmas about the cookie merge. -/

theorem pairIn_append_false {c : Cookie} {l₁ l₂ : List Cookie} :
    pairIn c (l₁ ++ l₂) = false ↔ pairIn c l₁ = false ∧ pairIn c l₂ = false := by
  simp [pairIn, List.any_append]

theorem pairIn_append (c : Cookie) (l₁ l₂ : List Cookie) :
    pairIn c (l₁ ++ l₂) = (pairIn c l₁ || pairIn c l₂) := by
  simp [pairIn, List.any_append]

/-- The merge loop of `handleDownloadRequest`, run from any accumulator
that splits as page cookies followed by already-kept video cookies,
appends exactly the first-seen-wins selection of the remaining video
cookies. -/
theorem mergeCookies_foldl_firstSeen (video : List Cookie) :
    ∀ page kept : List Cookie,
      video.foldl (fun acc vc => if pairIn vc acc then acc else acc ++ [vc])
          (page ++ kept) =
        page ++ kept ++ firstSeenKept page kept video := by
  induction video with
  | nil =>
    intro page kept
    simp [firstSeenKept]
  | cons vc rest ih =>
    intro page kept
    simp only [List.foldl_cons, pairIn_append]
    by_cases h : (pairIn vc page || pairIn vc kept) = true
    · rw [if_pos h, ih page kept]
      simp [firstSeenKept, h]
    · rw [if_neg h]
      have hsplit : (page ++ kept) ++ [vc] = page ++ (kept ++ [vc]) :=
        List.append_assoc page kept [vc]
      rw [hsplit, ih page (kept ++ [vc])]
      simp [firstSeenKept, h, List.append_assoc]

/-- Refinement: the cookie merge of the source equals the page-URL
cookies followed by the spec-worded first-seen-wins selection of the
video-URL cookies. -/
theorem mergeCookies_eq_firstSeen (page video : List Cookie) :
    mergeCookies page video = page ++ firstSeenKept page [] video := by
  have h := mergeCookies_foldl_firstSeen video page []
  simpa [mergeCookies] using h

theorem mergeCookies_foldl_structure (video : List Cookie) :
    ∀ acc : List Cookie,
      ∃ vs,
        video.foldl (fun acc vc => if pairIn vc acc then acc else acc ++ [vc]) acc =
          acc ++ vs ∧
        vs.Sublist video ∧
        (∀ c ∈ vs, pairIn c acc = false) ∧
        vs.Pairwise (fun a b => ¬(a.name = b.name ∧ a.domain = b.domain)) := by
  induction video with
  | nil =>
    intro acc
    exact ⟨[], by simp, List.Sublist.refl _, by simp, List.Pairwise.nil⟩
  | cons v rest ih =>
    intro acc
    show ∃ vs, rest.foldl _ (if pairIn v acc then acc else acc ++ [v]) = acc ++ vs ∧ _
    by_cases h : pairIn v acc = true
    · rw [if_pos h]
      obtain ⟨vs, heq, hsub, hnotin, hpw⟩ := ih acc
      exact ⟨vs, heq, hsub.cons v, hnotin, hpw⟩
    · rw [if_neg h]
      obtain ⟨vs, heq, hsub, hnotin, hpw⟩ := ih (acc ++ [v])
      refine ⟨v :: vs, ?_, hsub.cons₂ v, ?_, ?_⟩
      · rw [heq, List.append_assoc]
        rfl
      · intro c hc
        rcases List.mem_cons.mp hc with rfl | hc'
        · exact Bool.eq_false_iff.mpr h
        · exact (pairIn_append_false.mp (hnotin c hc')).1
      · refine List.Pairwise.cons ?_ hpw
        intro b hb
        have h1 := (pairIn_append_false.mp (hnotin b hb)).2
        simpa [pairIn] using h1

/-- The popup's normalization depends only on scheme, host, port and path
of a parsed URL — the query string never influences it. -/
theorem normParsed_ignores_query (u₁ u₂ : ParsedUrl)
    (hs : u₁.scheme = u₂.scheme) (hh : u₁.hostname = u₂.hostname)
    (hp : u₁.port = u₂.port) (hpath : u₁.pathname = u₂.pathname) :
    normParsed u₁ = normParsed u₂ := by
  cases u₁
  cases u₂
  simp only at hs hh hp hpath
  subst hs; subst hh; subst hp; subst hpath
  rfl

/-! Helper lemmas about the modelled Job progress machine. -/

theorem applyProgress_mono (j : Job) (p : ℚ) :
    j.progress ≤ (applyProgress j p).progress := by
  unfold applyProgress
  split_ifs
  · exact le_max_left _ _
  · exact le_refl _

theorem applyProgress_id (j : Job) (p : ℚ) : (applyProgress j p).id = j.id := by
  unfold applyProgress
  split_ifs <;> rfl

theorem applyProgressTrace_mono (ps : List ℚ) :
    ∀ j : Job, j.progress ≤ (applyProgressTrace j ps).progress := by
  induction ps with
  | nil => intro j; exact le_refl _
  | cons p rest ih =>
    intro j
    exact le_trans (applyProgress_mono j p) (ih (applyProgress j p))

theorem routeUrls_invalid (u pageUrl : String) (hinv : isInvalidUrl (some u) = true)
    (hns : isSpecialStreamUrl u = false) :
    routeUrls (some u) pageUrl = .ok (pageUrl, none) := by
  simp [routeUrls, hns, hinv]

/-! Claim theorems. -/

/-- C3: for every download request whose url is recognized as a
token-bearing special stream URL (Cloudflare Stream with `/manifest/`,
SmartPlayer, or ScaleUp), the payload posted to `/api/download` carries
that url unchanged as the download `url` and `null` as `videoUrl`. -/
theorem c3_special_stream_forwarded_unchanged (d : DownloadData) (env : HandleEnv)
    (u : String) (hu : d.url = some u) (hs : isSpecialStreamUrl u = true) :
    ∃ p, (handleDownloadRequest d env).posted = some p ∧
      p.lookup "url" = some (.jstr u) ∧ p.lookup "videoUrl" = some .jnull := by
  have hr : routeUrls d.url d.pageUrl = .ok (u, none) := by
    rw [hu]; exact routeUrls_special u d.pageUrl hs
  exact ⟨_, handle_posted d env u none hr, rfl, rfl⟩

/-- Witness for C3 at a concrete Cloudflare Stream manifest URL. -/
theorem c3_witness :
    (⟨some "https://c.cloudflarestream.com/tok/manifest/video.m3u8",
       "https://page.example.com/aula", some "Aula", some "mp4"⟩ : DownloadData).url =
      some "https://c.cloudflarestream.com/tok/manifest/video.m3u8" ∧
    isSpecialStreamUrl "https://c.cloudflarestream.com/tok/manifest/video.m3u8" = true ∧
    ∃ p, (handleDownloadRequest
        ⟨some "https://c.cloudflarestream.com/tok/manifest/video.m3u8",
         "https://page.example.com/aula", some "Aula", some "mp4"⟩
        ⟨.ok [], .ok [], .ok (true, ⟨false, none, []⟩)⟩).posted = some p ∧
      p.lookup "url" = some (.jstr "https://c.cloudflarestream.com/tok/manifest/video.m3u8") ∧
      p.lookup "videoUrl" = some .jnull :=
  ⟨rfl, by decide,
   c3_special_stream_forwarded_unchanged _ _ _ rfl (by decide)⟩

/-- C7: a non-OK server response with `extraction_required` set yields the
wait-and-retry notification carrying the server's hint (or the default
retry message) — never the success notification — and the server's result
object is returned unchanged to the requester. -/
theorem c7_extraction_deferred_retry_hint (d : DownloadData) (env : HandleEnv)
    (u : String) (body : ServerBody) (hu : d.url = some u)
    (hf : env.fetchRes = .ok (false, body)) (hx : body.extraction_required = true) :
    (handleDownloadRequest d env).ret = .body body ∧
    (handleDownloadRequest d env).notif =
      some (.waitForLoad "Aguarde o vídeo carregar"
        (jsOrStr body.hint "Aguarde o vídeo carregar na página e tente novamente")) ∧
    ∀ t m, (handleDownloadRequest d env).notif ≠ some (.downloadStarted t m) := by
  obtain ⟨du, vu, hr⟩ := routeUrls_some_isOk u d.pageUrl
  have hr' : routeUrls d.url d.pageUrl = .ok (du, vu) := by rw [hu]; exact hr
  have hnotif : (handleDownloadRequest d env).notif =
      some (.waitForLoad "Aguarde o vídeo carregar"
        (jsOrStr body.hint "Aguarde o vídeo carregar na página e tente novamente")) := by
    unfold handleDownloadRequest
    rw [hr', hf]
    simp [hx]
  refine ⟨handle_ret_fetch_ok d env du vu false body hr' hf, hnotif, ?_⟩
  intro t m
  rw [hnotif]
  simp

/-- Witness for C7 with a deferred-extraction response carrying a hint. -/
theorem c7_witness :
    (⟨some "https://member.hub.la/video", "https://member.hub.la/page", none, none⟩ :
        DownloadData).url = some "https://member.hub.la/video" ∧
    (⟨.ok [], .ok [], .ok (false, ⟨true, some "Aguarde", []⟩)⟩ : HandleEnv).fetchRes =
      .ok (false, ⟨true, some "Aguarde", []⟩) ∧
    (⟨true, some "Aguarde", []⟩ : ServerBody).extraction_required = true ∧
    ((handleDownloadRequest
        ⟨some "https://member.hub.la/video", "https://member.hub.la/page", none, none⟩
        ⟨.ok [], .ok [], .ok (false, ⟨true, some "Aguarde", []⟩)⟩).ret =
        .body ⟨true, some "Aguarde", []⟩ ∧
      (handleDownloadRequest
        ⟨some "https://member.hub.la/video", "https://member.hub.la/page", none, none⟩
        ⟨.ok [], .ok [], .ok (false, ⟨true, some "Aguarde", []⟩)⟩).notif =
        some (.waitForLoad "Aguarde o vídeo carregar"
          (jsOrStr (some "Aguarde") "Aguarde o vídeo carregar na página e tente novamente")) ∧
      ∀ t m, (handleDownloadRequest
        ⟨some "https://member.hub.la/video", "https://member.hub.la/page", none, none⟩
        ⟨.ok [], .ok [], .ok (false, ⟨true, some "Aguarde", []⟩)⟩).notif ≠
          some (.downloadStarted t m)) :=
  ⟨rfl, rfl, rfl, c7_extraction_deferred_retry_hint _ _ _ _ rfl rfl rfl⟩

/-- C10: `handleDownloadRequest` is total at the message boundary — it
always returns either the server body or a `{success: false, error}`
object; a fetch failure is caught and reported through the failure return
with the failure message, and an absent url (whose `.includes` access
throws) is likewise caught rather than propagated. -/
theorem c10_handle_download_total :
    (∀ (d : DownloadData) (env : HandleEnv),
      (∃ b, (handleDownloadRequest d env).ret = .body b) ∨
      (∃ m, (handleDownloadRequest d env).ret = .failure m)) ∧
    (∀ (d : DownloadData) (env : HandleEnv) (u m : String),
      d.url = some u → env.fetchRes = .error m →
      (handleDownloadRequest d env).ret = .failure m) ∧
    (∀ (d : DownloadData) (env : HandleEnv),
      d.url = none → ∃ m, (handleDownloadRequest d env).ret = .failure m) := by
  refine ⟨?_, ?_, ?_⟩
  · intro d env
    cases hu : d.url with
    | none =>
      exact Or.inr ⟨_, by rw [handle_url_none d env hu]⟩
    | some u =>
      obtain ⟨du, vu, hr⟩ := routeUrls_some_isOk u d.pageUrl
      have hr' : routeUrls d.url d.pageUrl = .ok (du, vu) := by rw [hu]; exact hr
      cases hf : env.fetchRes with
      | error m => exact Or.inr ⟨m, handle_ret_fetch_error d env du vu m hr' hf⟩
      | ok r => exact Or.inl ⟨r.2, handle_ret_fetch_ok d env du vu r.1 r.2 hr' (by rw [hf])⟩
  · intro d env u m hu hf
    obtain ⟨du, vu, hr⟩ := routeUrls_some_isOk u d.pageUrl
    exact handle_ret_fetch_error d env du vu m (by rw [hu]; exact hr) hf
  · intro d env hu
    exact ⟨_, by rw [handle_url_none d env hu]⟩

/-- Witness for C10: a request whose fetch throws still produces the
failure return carrying the message. -/
theorem c10_witness :
    (⟨some "https://cdn.example.net/v.mp4", "https://page.example.com/", none, none⟩ :
        DownloadData).url = some "https://cdn.example.net/v.mp4" ∧
    (⟨.ok [], .ok [], .error "Failed to fetch"⟩ : HandleEnv).fetchRes =
      .error "Failed to fetch" ∧
    (handleDownloadRequest
        ⟨some "https://cdn.example.net/v.mp4", "https://page.example.com/", none, none⟩
        ⟨.ok [], .ok [], .error "Failed to fetch"⟩).ret = .failure "Failed to fetch" :=
  ⟨rfl, rfl, c10_handle_download_total.2.1 _ _ _ _ rfl rfl⟩

/-- C6: cookie retrieval fails softly — an error from the browser yields
the empty list; a successful retrieval yields one record per raw cookie
holding exactly the seven projected fields with `expirationDate`
defaulting to 0; and a request whose cookie retrievals both fail still
posts its payload, with an empty cookie list. -/
theorem c6_cookie_retrieval_fail_soft :
    (∀ msg, getCookiesForUrl (.error msg) = []) ∧
    (∀ cs, getCookiesForUrl (.ok cs) = cs.map projectCookie) ∧
    (∀ rc : RawCookie,
      (projectCookie rc).name = rc.name ∧ (projectCookie rc).value = rc.value ∧
      (projectCookie rc).domain = rc.domain ∧ (projectCookie rc).path = rc.path ∧
      (projectCookie rc).secure = rc.secure ∧ (projectCookie rc).httpOnly = rc.httpOnly ∧
      (projectCookie rc).expirationDate = rc.expirationDate.getD 0 ∧
      (rc.expirationDate = none → (projectCookie rc).expirationDate = 0)) ∧
    (∀ (d : DownloadData) (env : HandleEnv) (u e₁ e₂ : String),
      d.url = some u → env.pageCookieRes = .error e₁ → env.videoCookieRes = .error e₂ →
      ∃ p, (handleDownloadRequest d env).posted = some p ∧
        p.lookup "cookies" = some (.jarr [])) := by
  refine ⟨fun msg => rfl, fun cs => rfl, ?_, ?_⟩
  · intro rc
    refine ⟨rfl, rfl, rfl, rfl, rfl, rfl, rfl, ?_⟩
    intro h
    simp [projectCookie, h]
  · intro d env u e₁ e₂ hu he₁ he₂
    obtain ⟨du, vu, hr⟩ := routeUrls_some_isOk u d.pageUrl
    have hr' : routeUrls d.url d.pageUrl = .ok (du, vu) := by rw [hu]; exact hr
    have hck : effectiveCookies d env = [] := by
      unfold effectiveCookies
      rw [he₁, he₂]
      split_ifs <;> rfl
    refine ⟨_, handle_posted d env du vu hr', ?_⟩
    rw [hck]
    rfl

/-- Witness for C6: both cookie retrievals erroring still posts a payload
with an empty cookie list. -/
theorem c6_witness :
    (⟨some "https://cdn.example.net/v.mp4", "https://page.example.com/", none, none⟩ :
        DownloadData).url = some "https://cdn.example.net/v.mp4" ∧
    (⟨.error "boom", .error "boom2", .ok (true, ⟨false, none, []⟩)⟩ : HandleEnv).pageCookieRes =
      .error "boom" ∧
    (⟨.error "boom", .error "boom2", .ok (true, ⟨false, none, []⟩)⟩ : HandleEnv).videoCookieRes =
      .error "boom2" ∧
    ∃ p, (handleDownloadRequest
        ⟨some "https://cdn.example.net/v.mp4", "https://page.example.com/", none, none⟩
        ⟨.error "boom", .error "boom2", .ok (true, ⟨false, none, []⟩)⟩).posted = some p ∧
      p.lookup "cookies" = some (.jarr []) :=
  ⟨rfl, rfl, rfl, c6_cookie_retrieval_fail_soft.2.2.2 _ _ _ _ _ rfl rfl rfl⟩

/-- C8: under the modelled Job progress machine, `progress` stays within
0-100, is monotonically non-decreasing under progress updates while the
Job is `downloading`/`processing` (and never decreases at all), progress
updates never change the Job id, and re-enqueue constructs a fresh Job
with progress 0 — so a decrease can only be observed across a new Job id. -/
theorem c8_progress_monotone_bounded :
    (∀ (j : Job) (p : ℚ),
      j.progress ≤ (applyProgress j p).progress ∧ (applyProgress j p).id = j.id) ∧
    (∀ (j : Job) (ps : List ℚ), j.progress ≤ (applyProgressTrace j ps).progress) ∧
    (∀ (j : Job) (p : ℚ), 0 ≤ j.progress → j.progress ≤ 100 →
      0 ≤ (applyProgress j p).progress ∧ (applyProgress j p).progress ≤ 100) ∧
    (∀ n : Nat, (mkJob n).progress = 0 ∧ (mkJob n).id = n ∧ (mkJob n).status = .pending) := by
  refine ⟨fun j p => ⟨applyProgress_mono j p, applyProgress_id j p⟩,
    fun j ps => applyProgressTrace_mono ps j, ?_, fun n => ⟨rfl, rfl, rfl⟩⟩
  intro j p h0 h100
  unfold applyProgress
  split_ifs
  · constructor
    · exact le_trans h0 (le_max_left _ _)
    · exact max_le h100 (min_le_left _ _)
  · exact ⟨h0, h100⟩

/-- Witness for C8 at a concrete downloading Job. -/
theorem c8_witness :
    (0 : ℚ) ≤ (⟨7, .downloading, 40⟩ : Job).progress ∧
    (⟨7, .downloading, 40⟩ : Job).progress ≤ 100 ∧
    (0 ≤ (applyProgress ⟨7, .downloading, 40⟩ 65).progress ∧
      (applyProgress ⟨7, .downloading, 40⟩ 65).progress ≤ 100) :=
  ⟨by norm_num, by norm_num,
   c8_progress_monotone_bounded.2.2.1 ⟨7, .downloading, 40⟩ 65 (by norm_num) (by norm_num)⟩

/-- C4: a URL counts as the SmartPlayer/ScaleUp audio track exactly when
it is a SmartPlayer/ScaleUp URL containing one of the markers `_en_`,
`_192k`, `_audio`; the selected main video stream is never such an audio
URL; and whenever an `.mp4` audio match is among the observed streams,
the selected audio stream is an `.mp4` one (packaged container preferred
over manifest). -/
theorem c4_smartplayer_audio_selection :
    (∀ url : String, isSmartPlayerAudioUrl url = true ↔
      (isSmartPlayerUrl (lowerStr url) = true ∧
        (strIncludes (lowerStr url) "_en_" = true ∨
         strIncludes (lowerStr url) "_192k" = true ∨
         strIncludes (lowerStr url) "_audio" = true))) ∧
    (∀ (streams : List StreamItem) (s : StreamItem),
      findMainVideoStream streams = some s → isSmartPlayerAudioUrl s.url = false) ∧
    (∀ (streams : List StreamItem) (a : StreamItem),
      a ∈ streams → isSmartPlayerAudioUrl a.url = true → hasMp4Url a = true →
      ∃ r, findSmartPlayerAudioStream streams = some r ∧
        isSmartPlayerAudioUrl r.url = true ∧ hasMp4Url r = true) := by
  refine ⟨?_, ?_, ?_⟩
  · intro url
    simp only [isSmartPlayerAudioUrl, isSmartPlayerUrl, Bool.and_eq_true, Bool.or_eq_true]
    tauto
  · intro streams s h
    simp only [findMainVideoStream] at h
    set vs := streams.filter
      (fun s => isValidVideoUrl s.url && !isSmartPlayerAudioUrl s.url) with hvs
    cases hs : jsSort (fun a b => (getStreamPriority b : Int) - (getStreamPriority a : Int)) vs with
    | nil => rw [hs] at h; exact absurd h (by simp)
    | cons hd tl =>
      rw [hs] at h
      have hhd : hd = s := by injection h
      have hmem : s ∈ vs := by
        have hin : s ∈ hd :: tl := hhd ▸ List.mem_cons_self hd tl
        rw [← hs] at hin
        exact mem_of_mem_jsSort hin
      have := (List.mem_filter.mp hmem).2
      simp only [Bool.and_eq_true, Bool.not_eq_true'] at this
      exact this.2
  · intro streams a ha haud hmp4
    have hmem : a ∈ streams.filter (fun s => isSmartPlayerAudioUrl s.url) :=
      List.mem_filter.mpr ⟨ha, haud⟩
    obtain ⟨r, t, hrt, hr⟩ :=
      jsSort_audioCmp_head (streams.filter (fun s => isSmartPlayerAudioUrl s.url))
        ⟨a, hmem, hmp4⟩
    refine ⟨r, ?_, ?_, hr⟩
    · simp only [findSmartPlayerAudioStream]
      rw [hrt]
    · have : r ∈ streams.filter (fun s => isSmartPlayerAudioUrl s.url) :=
        mem_of_mem_jsSort (hrt ▸ List.mem_cons_self r t)
      exact (List.mem_filter.mp this).2

/-- A concrete ScaleUp `.mp4` audio stream item used by the C4 witness. -/
def c4AudioItem : StreamItem :=
  ⟨"https://b.scaleup.com.br/v/lesson_192k.mp4", "direct", "smartplayer"⟩

/-- A concrete ScaleUp stream set (manifest audio, packaged audio, video)
used by the C4 witness. -/
def c4Streams : List StreamItem :=
  [⟨"https://b.scaleup.com.br/v/lesson_en_audio.m3u8", "hls", "smartplayer"⟩,
   c4AudioItem,
   ⟨"https://b.scaleup.com.br/v/lesson_720p.mp4", "direct", "smartplayer"⟩]

/-- Witness for C4 with a concrete ScaleUp stream set: an `.mp4` audio
URL, an `.m3u8` audio URL and a video URL. -/
theorem c4_witness :
    c4AudioItem ∈ c4Streams ∧
    isSmartPlayerAudioUrl c4AudioItem.url = true ∧
    hasMp4Url c4AudioItem = true ∧
    ∃ r, findSmartPlayerAudioStream c4Streams = some r ∧
      isSmartPlayerAudioUrl r.url = true ∧ hasMp4Url r = true :=
  ⟨by decide, by decide, by decide,
   c4_smartplayer_audio_selection.2.2 c4Streams c4AudioItem (by decide) (by decide) (by decide)⟩

/-- A concrete pair of Cloudflare Stream manifest URLs differing only in
the rotating token segment, used by the C1 counterexample. -/
def c1UrlTokenA : String :=
  "https://customer-abc.cloudflarestream.com/tokenAAA/manifest/video.m3u8?parentOrigin=x"

/-- The same logical asset as `c1UrlTokenA` under a rotated token. -/
def c1UrlTokenB : String :=
  "https://customer-abc.cloudflarestream.com/tokenBBB/manifest/video.m3u8?parentOrigin=x"

/-- C1 counterexample: two Cloudflare Stream URLs differing only in the
token segment normalize to different strings — the regex keeps the token
segment in the returned match — so the popup's dedup step keeps both
items instead of only the first. -/
theorem c1_counterexample :
    normalizeUrl c1UrlTokenA ≠ normalizeUrl c1UrlTokenB ∧
    dedupByNorm [⟨c1UrlTokenA, "hls", "cloudflare_stream"⟩,
                 ⟨c1UrlTokenB, "hls", "cloudflare_stream"⟩] =
      [⟨c1UrlTokenA, "hls", "cloudflare_stream"⟩,
       ⟨c1UrlTokenB, "hls", "cloudflare_stream"⟩] := by
  constructor
  · decide
  · decide

/-- C1 (amended): normalization strips only the query string (and, for
Cloudflare hosts, the origin scheme): any two URLs that parse to the same
scheme, host, port and path — in particular two observations of the same
Cloudflare manifest under the same token with different query strings —
normalize to the same string, and the popup's dedup step then keeps only
the first of two such items.  URLs differing in the token segment are not
identified. -/
theorem c1_normalize_query_invariant (url₁ url₂ : String) (u₁ u₂ : ParsedUrl)
    (h₁ : parseUrl url₁ = some u₁) (h₂ : parseUrl url₂ = some u₂)
    (hs : u₁.scheme = u₂.scheme) (hh : u₁.hostname = u₂.hostname)
    (hp : u₁.port = u₂.port) (hpath : u₁.pathname = u₂.pathname) :
    normalizeUrl url₁ = normalizeUrl url₂ ∧
    (∀ a b : StreamItem, normalizeUrl a.url = normalizeUrl b.url →
      dedupByNorm [a, b] = [a]) := by
  constructor
  · unfold normalizeUrl
    rw [h₁, h₂]
    exact normParsed_ignores_query u₁ u₂ hs hh hp hpath
  · intro a b hab
    simp [dedupByNorm, List.enum, List.enumFrom, List.findIdx?, hab]

/-- The first C1 witness URL: token `tokenAAA`, query `parentOrigin=x`. -/
def c1UrlQ1 : String :=
  "https://customer-abc.cloudflarestream.com/tokenAAA/manifest/video.m3u8?parentOrigin=x"

/-- The second C1 witness URL: same token, query `t=99`. -/
def c1UrlQ2 : String :=
  "https://customer-abc.cloudflarestream.com/tokenAAA/manifest/video.m3u8?t=99"

/-- Parse result of `c1UrlQ1`. -/
def c1Parsed1 : ParsedUrl :=
  ⟨"https", "customer-abc.cloudflarestream.com", "",
   "/tokenAAA/manifest/video.m3u8", "parentOrigin=x"⟩

/-- Parse result of `c1UrlQ2`. -/
def c1Parsed2 : ParsedUrl :=
  ⟨"https", "customer-abc.cloudflarestream.com", "",
   "/tokenAAA/manifest/video.m3u8", "t=99"⟩

/-- Witness for C1 (amended): the same token under two different query
strings normalizes identically. -/
theorem c1_witness :
    parseUrl c1UrlQ1 = some c1Parsed1 ∧
    parseUrl c1UrlQ2 = some c1Parsed2 ∧
    c1Parsed1.scheme = c1Parsed2.scheme ∧
    c1Parsed1.hostname = c1Parsed2.hostname ∧
    c1Parsed1.port = c1Parsed2.port ∧
    c1Parsed1.pathname = c1Parsed2.pathname ∧
    normalizeUrl c1UrlQ1 = normalizeUrl c1UrlQ2 :=
  ⟨by decide, by decide, rfl, rfl, rfl, rfl,
   (c1_normalize_query_invariant c1UrlQ1 c1UrlQ2 c1Parsed1 c1Parsed2
      (by decide) (by decide) rfl rfl rfl rfl).1⟩

/-- Request data for the C2 counterexample: a valid video URL distinct
from the page URL, so the video-URL cookie fetch runs. -/
def c2Data : DownloadData :=
  ⟨some "https://cdn.example.net/video.mp4", "https://page.example.com/p", none, none⟩

/-- Environment for the C2 counterexample: no page-URL cookies, and two
video-URL cookies sharing a `(name, domain)` pair under different paths
(a root-scoped and a path-scoped cookie both match the video URL). -/
def c2Env : HandleEnv :=
  ⟨.ok [],
   .ok [⟨"sid", "1", "example.net", "/", false, false, none⟩,
        ⟨"sid", "2", "example.net", "/video.mp4", false, false, none⟩],
   .ok (true, ⟨false, none, []⟩)⟩

/-- C2 counterexample: with an empty page-URL cookie list and two
video-URL cookies sharing a `(name, domain)` pair, the payload carries
only the first of them, while the claim's rule (keep exactly those
video-URL cookies whose pair is absent from the page-URL cookies) keeps
both — the merge also deduplicates within the video-URL cookies. -/
theorem c2_counterexample :
    ((handleDownloadRequest c2Data c2Env).posted.getD []).lookup "cookies" =
      some (.jarr [⟨"sid", "1", "example.net", "/", false, false, 0⟩]) ∧
    mergeCookiesSpec []
        [⟨"sid", "1", "example.net", "/", false, false, 0⟩,
         ⟨"sid", "2", "example.net", "/video.mp4", false, false, 0⟩] =
      [⟨"sid", "1", "example.net", "/", false, false, 0⟩,
       ⟨"sid", "2", "example.net", "/video.mp4", false, false, 0⟩] ∧
    ([⟨"sid", "1", "example.net", "/", false, false, 0⟩] : List Cookie) ≠
      [⟨"sid", "1", "example.net", "/", false, false, 0⟩,
       ⟨"sid", "2", "example.net", "/video.mp4", false, false, 0⟩] := by
  refine ⟨?_, ?_, ?_⟩ <;> decide

/-- C2 (amended): the cookie list attached to the payload is exactly the
page-URL cookie list followed, in order, by those video-URL cookies whose
`(name, domain)` pair occurs neither in the page-URL cookies nor among
the video-URL cookies already appended (first-seen-wins within the
video-URL cookies as well, as `firstSeenKept` states from the amended
rule's words); in particular every eligible video-URL cookie is appended,
the first of duplicate pairs wins, and no video-URL cookie ever replaces
a page-URL cookie. -/
theorem c2_merge_first_seen_wins (d : DownloadData) (env : HandleEnv) (u : String)
    (hu : d.url = some u) (hw : wantsVideoCookies d = true) (hp : d.pageUrl ≠ "") :
    ∃ p, (handleDownloadRequest d env).posted = some p ∧
      p.lookup "cookies" =
        some (.jarr (getCookiesForUrl env.pageCookieRes ++
          firstSeenKept (getCookiesForUrl env.pageCookieRes) []
            (getCookiesForUrl env.videoCookieRes))) := by
  obtain ⟨du, vu, hr⟩ := routeUrls_some_isOk u d.pageUrl
  have hr' : routeUrls d.url d.pageUrl = .ok (du, vu) := by rw [hu]; exact hr
  have hck : effectiveCookies d env =
      getCookiesForUrl env.pageCookieRes ++
        firstSeenKept (getCookiesForUrl env.pageCookieRes) []
          (getCookiesForUrl env.videoCookieRes) := by
    unfold effectiveCookies
    rw [if_pos hp, if_pos hw]
    exact mergeCookies_eq_firstSeen _ _
  refine ⟨_, handle_posted d env du vu hr', ?_⟩
  rw [hck]
  rfl

/-- Witness for C2 (amended) at the counterexample's concrete request:
the first-seen-wins selection concretely keeps only the first of the two
pair-sharing video cookies, and the payload carries exactly that list. -/
theorem c2_witness :
    c2Data.url = some "https://cdn.example.net/video.mp4" ∧
    wantsVideoCookies c2Data = true ∧
    c2Data.pageUrl ≠ "" ∧
    firstSeenKept (getCookiesForUrl c2Env.pageCookieRes) []
        (getCookiesForUrl c2Env.videoCookieRes) =
      [⟨"sid", "1", "example.net", "/", false, false, 0⟩] ∧
    ∃ p, (handleDownloadRequest c2Data c2Env).posted = some p ∧
      p.lookup "cookies" =
        some (.jarr (getCookiesForUrl c2Env.pageCookieRes ++
          firstSeenKept (getCookiesForUrl c2Env.pageCookieRes) []
            (getCookiesForUrl c2Env.videoCookieRes))) :=
  ⟨rfl, by decide, by decide, by decide,
   c2_merge_first_seen_wins c2Data c2Env _ rfl (by decide) (by decide)⟩

/-- Request/environment for the C5 counterexample. -/
def c5Data : DownloadData :=
  ⟨some "https://cdn.example.net/video.m3u8", "https://page.example.com/p",
   some "Aula 1", some "mp4"⟩

/-- Environment for the C5 counterexample. -/
def c5Env : HandleEnv := ⟨.ok [], .ok [], .ok (true, ⟨false, none, []⟩)⟩

/-- C5 counterexample: the posted body has no `pageUrl` field, although
the claim (and the collaborator-boundary text of the spec) says that
field is supplied. -/
theorem c5_counterexample :
    (handleDownloadRequest c5Data c5Env).posted.isSome = true ∧
    ((handleDownloadRequest c5Data c5Env).posted.getD []).lookup "pageUrl" = none := by
  refine ⟨?_, ?_⟩ <;> decide

/-- C5 (amended): every posted enqueue body carries exactly the fields
`url`, `videoUrl`, `title`, `cookies`, `outputFormat` — with `title`
defaulting to `video` and `outputFormat` to `mp4` when absent or empty —
and carries no `pageUrl` field. -/
theorem c5_payload_schema (d : DownloadData) (env : HandleEnv) (u : String)
    (hu : d.url = some u) :
    ∃ p, (handleDownloadRequest d env).posted = some p ∧
      p.map Prod.fst = ["url", "videoUrl", "title", "cookies", "outputFormat"] ∧
      p.lookup "title" = some (.jstr (jsOrStr d.title "video")) ∧
      p.lookup "outputFormat" = some (.jstr (jsOrStr d.format "mp4")) ∧
      p.lookup "pageUrl" = none := by
  obtain ⟨du, vu, hr⟩ := routeUrls_some_isOk u d.pageUrl
  have hr' : routeUrls d.url d.pageUrl = .ok (du, vu) := by rw [hu]; exact hr
  refine ⟨_, handle_posted d env du vu hr', rfl, rfl, rfl, rfl⟩

/-- Witness for C5 (amended) at a concrete request with absent title and
format. -/
theorem c5_witness :
    (⟨some "https://cdn.example.net/video.m3u8", "https://page.example.com/p",
        none, none⟩ : DownloadData).url = some "https://cdn.example.net/video.m3u8" ∧
    ∃ p, (handleDownloadRequest
        ⟨some "https://cdn.example.net/video.m3u8", "https://page.example.com/p",
         none, none⟩ c5Env).posted = some p ∧
      p.map Prod.fst = ["url", "videoUrl", "title", "cookies", "outputFormat"] ∧
      p.lookup "title" = some (.jstr (jsOrStr none "video")) ∧
      p.lookup "outputFormat" = some (.jstr (jsOrStr none "mp4")) ∧
      p.lookup "pageUrl" = none :=
  ⟨rfl, c5_payload_schema
    ⟨some "https://cdn.example.net/video.m3u8", "https://page.example.com/p", none, none⟩
    c5Env _ rfl⟩

/-- Environment for the C9 counterexample. -/
def c9Env : HandleEnv := ⟨.ok [], .ok [], .ok (true, ⟨false, none, []⟩)⟩

/-- C9 counterexample: (i) a request with an absent url posts no payload
at all — the `undefined.includes` access throws before the fetch and the
handler returns the caught failure — and (ii) a `blob:` url that happens
to contain the special-stream markers is forwarded unchanged as the
download url instead of being replaced by the page URL. -/
theorem c9_counterexample :
    (handleDownloadRequest ⟨none, "https://page.example.com/watch", none, none⟩ c9Env).posted =
      none ∧
    (handleDownloadRequest ⟨none, "https://page.example.com/watch", none, none⟩ c9Env).ret =
      .failure "TypeError: Cannot read properties of undefined (reading includes)" ∧
    ((handleDownloadRequest
        ⟨some "blob:https://app.smartplayer.io/550e8400-uuid",
         "https://page.example.com/watch", none, none⟩ c9Env).posted.getD []).lookup "url" =
      some (.jstr "blob:https://app.smartplayer.io/550e8400-uuid") := by
  refine ⟨?_, ?_, ?_⟩ <;> decide

/-- C9 (amended): for a request whose url is present but invalid (empty
or prefixed by `blob:`, `data:`, `chrome:`, `about:`, `javascript:`) and
not recognized as a special stream URL, the payload's `url` field is the
request's `pageUrl` and `videoUrl` is null; a request with an absent url
instead fails with the caught `TypeError` and posts nothing. -/
theorem c9_invalid_url_uses_page_url (d : DownloadData) (env : HandleEnv) (u : String)
    (hu : d.url = some u) (hinv : isInvalidUrl (some u) = true)
    (hns : isSpecialStreamUrl u = false) :
    ∃ p, (handleDownloadRequest d env).posted = some p ∧
      p.lookup "url" = some (.jstr d.pageUrl) ∧
      p.lookup "videoUrl" = some .jnull := by
  have hr : routeUrls d.url d.pageUrl = .ok (d.pageUrl, none) := by
    rw [hu]; exact routeUrls_invalid u d.pageUrl hinv hns
  exact ⟨_, handle_posted d env d.pageUrl none hr, rfl, rfl⟩

/-- Witness for C9 (amended) at a concrete `blob:` url. -/
theorem c9_witness :
    (⟨some "blob:https://site.example.com/f0a1", "https://page.example.com/watch",
        none, none⟩ : DownloadData).url = some "blob:https://site.example.com/f0a1" ∧
    isInvalidUrl (some "blob:https://site.example.com/f0a1") = true ∧
    isSpecialStreamUrl "blob:https://site.example.com/f0a1" = false ∧
    ∃ p, (handleDownloadRequest
        ⟨some "blob:https://site.example.com/f0a1", "https://page.example.com/watch",
         none, none⟩ c9Env).posted = some p ∧
      p.lookup "url" = some (.jstr "https://page.example.com/watch") ∧
      p.lookup "videoUrl" = some .jnull :=
  ⟨rfl, by decide, by decide,
   c9_invalid_url_uses_page_url
     ⟨some "blob:https://site.example.com/f0a1", "https://page.example.com/watch",
      none, none⟩ c9Env _ rfl (by decide) (by decide)⟩

end VideoDL
